/-
  Verification of the RSS static-site generator (`build.py`).

  Shallow embedding of the script's data model and operations:
  raw feedparser entries become records of optional fields, Python dict
  subscripting that can raise `KeyError`/`IndexError` is modelled with
  `Except PyErr`, machine time is modelled as `Int` epoch seconds, and the
  fetch of one URL is a total function from URL to parsed feed document
  (transport failures surface as `bozo` documents, as feedparser does).
-/
import Mathlib

namespace RSSBuild

/-- Python exceptions that the embedded fragments can raise. -/
inductive PyErr where
  | keyError
  | indexError
deriving DecidableEq, Repr

/-- Decidable equality for `Except` results (used to evaluate the model at
concrete inputs). -/
def exceptDecEq {ε α : Type} [DecidableEq ε] [DecidableEq α] :
    DecidableEq (Except ε α) := fun x y =>
  match x, y with
  | .error e, .error e' =>
    if h : e = e' then .isTrue (by rw [h]) else .isFalse (by simp [h])
  | .error _, .ok _ => .isFalse (by simp)
  | .ok _, .error _ => .isFalse (by simp)
  | .ok a, .ok a' =>
    if h : a = a' then .isTrue (by rw [h]) else .isFalse (by simp [h])

instance {ε α : Type} [DecidableEq ε] [DecidableEq α] :
    DecidableEq (Except ε α) := exceptDecEq

/-- The single-quote character (used by the `<img src=...>` regex). -/
def squote : Char := Char.ofNat 39

/-- Python's substring test `needle in hay` on strings. -/
def pyIn (needle hay : String) : Bool :=
  decide (needle.toList <:+: hay.toList)

/-- Python's `str.lower()`: lower-case each character. -/
def pyLower (s : String) : String :=
  (s.toList.map Char.toLower).asString

/-- Python's `str.strip()`: drop whitespace from both ends. -/
def pyStrip (s : String) : String :=
  ((s.toList.dropWhile Char.isWhitespace).reverse.dropWhile
    Char.isWhitespace).reverse.asString

/-- One item of an entry's `media_content` or `media_thumbnail` list: a dict
that may lack any of the keys the script reads. -/
structure MediaItem where
  type : Option String
  medium : Option String
  url : Option String
deriving DecidableEq, Repr

/-- One item of an entry's `links` list. -/
structure LinkItem where
  rel : Option String
  type : Option String
  href : Option String
deriving DecidableEq, Repr

/-- One item of an entry's `content` list (a dict that may lack `value`). -/
structure ContentItem where
  value : Option String
deriving DecidableEq, Repr

/-- A raw feed entry as the script sees it: every field optional.
`published_parsed`/`updated_parsed` are modelled by the epoch seconds that
`time.mktime` returns for them (an `Int`: pre-1970 dates are negative). -/
structure RawEntry where
  title : Option String
  link : Option String
  published_parsed : Option Int
  updated_parsed : Option Int
  summary : Option String
  description : Option String
  content : Option (List ContentItem)
  media_content : Option (List MediaItem)
  media_thumbnail : Option (List MediaItem)
  links : Option (List LinkItem)
deriving DecidableEq, Repr

/-- Module-level constant `new_threshold_hours = 24`. -/
def new_threshold_hours : Int := 24

/-- Module-level constant `max_entries = 10`. -/
def max_entries : Nat := 10

/-- `parse_date` (build.py:39-44): prefer `published_parsed`, fall back to
`updated_parsed`, else `None`. -/
def parse_date (entry : RawEntry) : Option Int :=
  match entry.published_parsed with
  | some t => some t
  | none =>
    match entry.updated_parsed with
    | some t => some t
    | none => none

/-- `format_relative_time` (build.py:46-58). `now_utc - dt_obj` in seconds,
bucketed; Python's float `//` is floor division, i.e. `Int.fdiv` here.
Labels are the script's Japanese literals: 分前 = minutes ago,
時間前 = hours ago, 昨日 = yesterday, 日前 = days ago. -/
def format_relative_time (dt_obj : Option Int) (now_utc : Int) : String :=
  match dt_obj with
  | none => ""
  | some t =>
    if now_utc - t < 3600 then
      toString (Int.fdiv (now_utc - t) 60) ++ "分前"
    else if now_utc - t < 86400 then
      toString (Int.fdiv (now_utc - t) 3600) ++ "時間前"
    else if now_utc - t < 172800 then
      "昨日"
    else
      toString (Int.fdiv (now_utc - t) 86400) ++ "日前"

/-- The media test on build.py:63, with Python's `or`/`and` precedence:
`('image' in media.get('type', '')) or ('medium' in media and media['medium'] == 'image')`. -/
def media_matches (m : MediaItem) : Bool :=
  pyIn "image" (m.type.getD "") ||
    (match m.medium with
     | some v => v == "image"
     | none => false)

/-- The link test on build.py:69:
`link.get('rel') == 'enclosure' and 'image' in link.get('type', '')`. -/
def link_matches (l : LinkItem) : Bool :=
  (l.rel == some "enclosure") && pyIn "image" (l.type.getD "")

/-- The `media_content` loop of `extract_image` (build.py:62-64): first
matching item wins; `media['url']` raises `KeyError` when absent. -/
def find_media_url : List MediaItem → Except PyErr (Option String)
  | [] => .ok none
  | m :: rest =>
    if media_matches m then
      match m.url with
      | some u => .ok (some u)
      | none => .error .keyError
    else
      find_media_url rest

/-- The `links` loop of `extract_image` (build.py:68-70): first enclosure
image link wins; `link['href']` raises `KeyError` when absent. -/
def find_enclosure_url : List LinkItem → Except PyErr (Option String)
  | [] => .ok none
  | l :: rest =>
    if link_matches l then
      match l.href with
      | some u => .ok (some u)
      | none => .error .keyError
    else
      find_enclosure_url rest

/-- `entry.media_thumbnail[0]['url']` (build.py:66): `IndexError` on an
empty list, `KeyError` on a missing `url` key. -/
def thumb_first : List MediaItem → Except PyErr String
  | [] => .error .indexError
  | m :: _ =>
    match m.url with
    | some u => .ok u
    | none => .error .keyError

/-- `entry.get('content', [{'value': ''}])[0]['value']` (build.py:71,99):
default `''` when `content` is absent; `IndexError` when it is present but
empty; `KeyError` when its first item lacks `value`. -/
def pyContentValue (e : RawEntry) : Except PyErr String :=
  match e.content with
  | none => .ok ""
  | some [] => .error .indexError
  | some (c :: _) =>
    match c.value with
    | some v => .ok v
    | none => .error .keyError

/-! ### The `<img ... src="...">` regex of build.py:72

`re.search(r'<img[^>]+src=["\'](.*?)["\']', content)`: leftmost start
position wins; at a given start, `[^>]+` is greedy (backtracks from the
longest run of non-`>` characters), the quote class accepts `"` or `'`,
and `(.*?)` is lazy, with `.` not matching a newline. -/

/-- Lazy `(.*?)["\']`: the capture runs to the first quote character, and
may not contain a newline (`.` does not match `\n`). -/
def lazyCapture : List Char → Option (List Char)
  | [] => none
  | c :: rest =>
    if c = '"' ∨ c = squote then some []
    else if c = '\n' then none
    else (lazyCapture rest).map (c :: ·)

/-- `src=["\'](.*?)["\']` anchored at the head of the list. -/
def srcQuoteAt (cs : List Char) : Option (List Char) :=
  if cs.take 4 = ['s', 'r', 'c', '='] then
    match cs.drop 4 with
    | q :: rest => if q = '"' ∨ q = squote then lazyCapture rest else none
    | [] => none
  else
    none

/-- Match `[^>]+src=["\'](.*?)["\']` against `rest` (the characters after a
`<img` occurrence).  `[^>]+` is greedy: among the gap lengths `k ≥ 1` that
stay inside the run of non-`>` characters and are followed by a full match
of the remainder of the pattern, backtracking selects the largest. -/
def imgMatchAt (rest : List Char) : Option (List Char) :=
  let bound := (rest.takeWhile (fun c => c ≠ '>')).length
  let ks := (List.range (bound + 1)).filter
    (fun k => decide (1 ≤ k) && (srcQuoteAt (rest.drop k)).isSome)
  ks.getLast?.bind (fun k => srcQuoteAt (rest.drop k))

/-- `re.search` for the img pattern: try each start position left to right;
a start position matches when it begins with `<img` and `imgMatchAt`
succeeds on the remainder; the first matching position's capture wins. -/
def reSearchImg : List Char → Option (List Char)
  | [] => none
  | c :: cs =>
    if (c :: cs).take 4 = ['<', 'i', 'm', 'g'] then
      match imgMatchAt ((c :: cs).drop 4) with
      | some cap => some cap
      | none => reSearchImg cs
    else
      reSearchImg cs

/-- String-level wrapper for the regex search: the captured URL, if any. -/
def pyImgSrcSearch (s : String) : Option String :=
  (reSearchImg s.toList).map List.asString

/-- Last fallback of `extract_image` (build.py:71-75): the regex scan of
`entry.get('summary', '') + entry.get('content', [{'value': ''}])[0]['value']`. -/
def extract_image_step4 (entry : RawEntry) : Except PyErr (Option String) :=
  match pyContentValue entry with
  | .error p => .error p
  | .ok cv => .ok (pyImgSrcSearch (entry.summary.getD "" ++ cv))

/-- The `links` step of `extract_image` (build.py:67-70), falling through
to the regex step when no enclosure image link is found. -/
def extract_image_step3 (entry : RawEntry) : Except PyErr (Option String) :=
  match entry.links with
  | none => extract_image_step4 entry
  | some ls =>
    match find_enclosure_url ls with
    | .error p => .error p
    | .ok (some u) => .ok (some u)
    | .ok none => extract_image_step4 entry

/-- The `media_thumbnail` step of `extract_image` (build.py:65-66):
unconditional when the key is present. -/
def extract_image_step2 (entry : RawEntry) : Except PyErr (Option String) :=
  match entry.media_thumbnail with
  | none => extract_image_step3 entry
  | some ts =>
    match thumb_first ts with
    | .error p => .error p
    | .ok u => .ok (some u)

/-- `extract_image` (build.py:60-75), its fall-through control flow split
into the step functions above: `media_content`, then `media_thumbnail`,
then enclosure links, then the `<img src>` regex. -/
def extract_image (entry : RawEntry) : Except PyErr (Option String) :=
  match entry.media_content with
  | none => extract_image_step2 entry
  | some ms =>
    match find_media_url ms with
    | .error p => .error p
    | .ok (some u) => .ok (some u)
    | .ok none => extract_image_step2 entry

/-- A normalized article, the dict returned by `process_entry`
(build.py:103-112).  `timestamp` is the sort key: `dt.timestamp()` when a
date parsed, else `0`. -/
structure Article where
  title : String
  link : String
  is_new : Bool
  relative_time : String
  summary : String
  image : Option String
  timestamp : Int
  source_title : String
deriving DecidableEq, Repr

/-- `is_ng_content` (build.py:77-84), applied by the script to processed
entry dicts (which always carry `title` and `summary`): case-insensitive
substring test of each keyword against `title + summary`.  The embedding
is a pure function, so it cannot mutate its argument. -/
def is_ng_content (entry : Article) (ng_keywords : List String) : Bool :=
  ng_keywords.any
    (fun keyword => pyIn (pyLower keyword) (pyLower (entry.title ++ entry.summary)))

/-- `process_entry` (build.py:86-112).  The date-derived fields are total;
the body selection and the thumbnail extraction can raise, which makes the
whole call raise (propagated to the caller's `try`). -/
def process_entry (entry : RawEntry) (feed_title feed_link : String)
    (now_utc : Int) : Except PyErr Article :=
  let dt := parse_date entry
  let is_new : Bool :=
    match dt with
    | some t => decide (now_utc - t < new_threshold_hours * 3600)
    | none => false
  let rel_time : String :=
    match dt with
    | some t => format_relative_time (some t) now_utc
    | none => ""
  let timestamp : Int :=
    match dt with
    | some t => t
    | none => 0
  let summary := entry.summary.getD (entry.description.getD "")
  match pyContentValue entry with
  | .error p => .error p
  | .ok content =>
    let text_content := if content.length > summary.length then content else summary
    match extract_image entry with
    | .error p => .error p
    | .ok image_url =>
      .ok ⟨entry.title.getD "No Title", entry.link.getD "#", is_new, rel_time,
        text_content, image_url, timestamp, feed_title⟩

/-! ### Configuration (feeds.json) -/

/-- One entry of a page's `feeds` list: `{url, title?}`. -/
structure FeedConf where
  url : String
  title : Option String
deriving DecidableEq, Repr

/-- One entry of `pages`; `ng_keywords` defaults to `[]` via `.get`. -/
structure PageConf where
  page_title : String
  filename : String
  feeds : List FeedConf
  ng_keywords : List String
deriving DecidableEq, Repr

/-- One entry of `watches`. -/
structure WatchConf where
  page_title : String
  filename : String
  keywords : List String
  ng_keywords : List String
deriving DecidableEq, Repr

/-- The loaded configuration. -/
structure Config where
  pages : List PageConf
  watches : List WatchConf
deriving DecidableEq, Repr

/-! ### The feed fetcher boundary

`feedparser.parse(url, ...)` is an external capability.  It returns a
document; transport and timeout failures surface as a `bozo` document
whose `bozo_exception` is a `socket.timeout`/`socket.error`, which the
script re-raises (build.py:139-142). -/

/-- The kind of `bozo_exception` carried by a bozo document. -/
inductive BozoExc where
  | timeout
  | socketError
  | other
deriving DecidableEq, Repr

/-- `isinstance(d.bozo_exception, (socket.timeout, socket.error))`. -/
def isTransport : BozoExc → Bool
  | .timeout => true
  | .socketError => true
  | .other => false

/-- Feed-level metadata of a parsed document (`d.feed`). -/
structure FeedMeta where
  title : Option String
  link : Option String
deriving DecidableEq, Repr

/-- A parsed feed document as returned by the fetcher. -/
structure FeedDoc where
  bozo : Bool
  bozo_exception : BozoExc
  feed : FeedMeta
  entries : List RawEntry
deriving DecidableEq, Repr

/-- `get_domain` (build.py:32-37): the netloc of the URL.  `urlparse` is an
external library call, modelled here by its documented netloc behaviour:
the text after the first `//`, up to the next `/`, `?` or `#`; empty when
the URL has no `//`. -/
def afterSlashes : List Char → Option (List Char)
  | [] => none
  | '/' :: '/' :: rest => some rest
  | _ :: rest => afterSlashes rest

/-- See `afterSlashes`; string-level `get_domain`. -/
def get_domain (url : String) : String :=
  match afterSlashes url.toList with
  | some rest =>
    (rest.takeWhile (fun c => c ≠ '/' && c ≠ '?' && c ≠ '#')).asString
  | none => ""

/-- The per-URL value stored in `results` on success (build.py:153-157). -/
structure SourceResult where
  title : String
  favicon : String
  entries : List Article
deriving DecidableEq, Repr

/-- The entry loop of `fetch_all_feeds` (build.py:148-151): normalize each
of the first `max_entries` entries; a raised exception aborts the loop. -/
def process_entries (es : List RawEntry) (feed_title feed_link : String)
    (now_utc : Int) : Except PyErr (List Article) :=
  es.mapM (fun e => process_entry e feed_title feed_link now_utc)

/-- The body of the per-URL `try` block of `fetch_all_feeds`
(build.py:134-160): `None` when the document is bozo with a
transport/timeout exception (re-raised and caught), or when normalizing
an entry raises; otherwise the assembled `SourceResult`. -/
def fetch_feed (world : String → FeedDoc) (now_utc : Int) (url : String)
    (title_override : Option String) : Option SourceResult :=
  let d := world url
  if d.bozo && isTransport d.bozo_exception then
    none
  else
    let feed_title := title_override.getD (d.feed.title.getD "Unknown Feed")
    let domain := get_domain (d.feed.link.getD url)
    let favicon := "https://www.google.com/s2/favicons?domain=" ++ domain
    match process_entries (d.entries.take max_entries) feed_title url now_utc with
    | .ok entries => some ⟨feed_title, favicon, entries⟩
    | .error _ => none

/-- Python dict assignment `m[k] = v`: update in place when the key exists
(keeping its position), else append. -/
def dictInsert {α : Type} : List (String × α) → String → α → List (String × α)
  | [], k, v => [(k, v)]
  | (k', v') :: rest, k, v =>
    if k' = k then (k', v) :: rest else (k', v') :: dictInsert rest k v

/-- Python dict lookup (keys are unique, so first match suffices). -/
def dictLookup {α : Type} : List (String × α) → String → Option α
  | [], _ => none
  | (k', v') :: rest, k => if k' = k then some v' else dictLookup rest k

/-- The set `all_urls` built by build.py:118-122: the `(stripped url,
title override)` pairs of every feed of every page.  The script fetches
once per element of this set. -/
def collect_urls (config : Config) : Finset (String × Option String) :=
  (config.pages.flatMap
    (fun p => p.feeds.map (fun f => (pyStrip f.url, f.title)))).toFinset

/-- The fetch loop of build.py:132-160 over one enumeration `pairs` of the
`all_urls` set (Python set iteration order is unspecified), accumulating
the `results` dict. -/
def fetch_all_feeds (world : String → FeedDoc) (now_utc : Int)
    (pairs : List (String × Option String)) : List (String × Option SourceResult) :=
  pairs.foldl (fun m p => dictInsert m p.1 (fetch_feed world now_utc p.1 p.2)) []

/-- The title override of the last pair in `pairs` carrying url `u`
(the fetch whose result survives in `results[u]`). -/
def lastTitle : List (String × Option String) → String → Option (Option String)
  | [], _ => none
  | (k, t) :: rest, u =>
    match lastTitle rest u with
    | some t' => some t'
    | none => if k = u then some t else none

/-! ### Page and watch builders (main, build.py:187-264) -/

/-- One element of the `feeds_data` view-model list handed to the
template (both page and watch shapes, build.py:207-214 and 257-264). -/
structure DisplayFeed where
  title : String
  favicon : String
  has_new : Bool
  total_count : Nat
  new_count : Nat
  entries : List Article
deriving DecidableEq, Repr

/-- `sum(1 for e in entries if e['is_new'])`. -/
def countNew (entries : List Article) : Nat :=
  (entries.filter (fun e => e.is_new)).length

/-- The per-page loop body of build.py:196-214: look up each feed's
stripped URL in the aggregated pool; skip when absent or `None`; filter
with the page's NG keywords; compute the counts. -/
def build_page_feeds (data : List (String × Option SourceResult))
    (page : PageConf) : List DisplayFeed :=
  page.feeds.filterMap (fun feed_conf =>
    match dictLookup data (pyStrip feed_conf.url) with
    | some (some src) =>
      let valid := src.entries.filter (fun e => !is_ng_content e page.ng_keywords)
      some ⟨src.title, src.favicon, decide (0 < countNew valid), valid.length,
        countNew valid, valid⟩
    | _ => none)

/-- Descending-recency order on articles: `r a b` holds when `a`'s sort
key is at least `b`'s (ties are equivalent, preserving encounter order
under a stable sort). -/
def tsGE (a b : Article) : Prop := b.timestamp ≤ a.timestamp

instance : DecidableRel tsGE := fun a b => Int.decLe b.timestamp a.timestamp

instance : IsTotal Article tsGE := ⟨fun a b => Int.le_total b.timestamp a.timestamp⟩

instance : IsTrans Article tsGE := ⟨fun _ _ _ h h' => le_trans h' h⟩

/-- `matched_entries.sort(key=lambda x: x['timestamp'], reverse=True)`
(build.py:250).  Python's `list.sort` is a stable sort, and a stable sort
by a total preorder has a unique result, here realized by insertion sort
with respect to `tsGE`. -/
def pySortDesc (l : List Article) : List Article :=
  List.insertionSort tsGE l

/-- The keyword scan of build.py:240-248: over every entry of every
aggregated source (skipping `None` results, in dict order), keep the
entries that survive the watch's NG filter and contain the keyword
case-insensitively in `title + summary`. -/
def watch_matches (data : List (String × Option SourceResult))
    (ng_keywords : List String) (kw : String) : List Article :=
  data.flatMap (fun p =>
    match p.2 with
    | none => []
    | some src =>
      src.entries.filter (fun e =>
        !is_ng_content e ng_keywords &&
          pyIn (pyLower kw) (pyLower (e.title ++ e.summary))))

/-- The per-keyword body of build.py:237-264: collect matches, sort by
recency, and produce a view-model entry only when matches exist. -/
def build_watch_entry (data : List (String × Option SourceResult))
    (ng_keywords : List String) (kw : String) : Option DisplayFeed :=
  let sorted := pySortDesc (watch_matches data ng_keywords kw)
  if sorted.isEmpty then
    none
  else
    some ⟨"Keyword: " ++ kw, "", decide (0 < countNew sorted), sorted.length,
      countNew sorted, sorted⟩

/-- The `watch_feeds_display` list of one watch page (build.py:235-264). -/
def build_watch_feeds (data : List (String × Option SourceResult))
    (watch : WatchConf) : List DisplayFeed :=
  watch.keywords.filterMap (build_watch_entry data watch.ng_keywords)

/-! ### Well-formed entries

The raised-exception analysis of `extract_image`/`process_entry` is driven
by which structured fields are present but malformed.  `wf` says each
structured field is either absent or carries the sub-keys the script
reads. -/

/-- Every `media_content` item that passes the image test carries a `url`. -/
def wf_media (e : RawEntry) : Bool :=
  (e.media_content.getD []).all (fun m => !media_matches m || m.url.isSome)

/-- `media_thumbnail`, when present, is non-empty and its first item
carries a `url`. -/
def wf_thumb (e : RawEntry) : Bool :=
  match e.media_thumbnail with
  | none => true
  | some [] => false
  | some (m :: _) => m.url.isSome

/-- Every matching enclosure image link carries an `href`. -/
def wf_links (e : RawEntry) : Bool :=
  (e.links.getD []).all (fun l => !link_matches l || l.href.isSome)

/-- `content`, when present, is non-empty and its first item carries a
`value`. -/
def wf_content (e : RawEntry) : Bool :=
  match e.content with
  | none => true
  | some [] => false
  | some (c :: _) => c.value.isSome

/-- A well-formed raw entry: each structured field absent or well-shaped. -/
def wf (e : RawEntry) : Bool :=
  wf_media e && wf_thumb e && wf_links e && wf_content e

/-! ### Total characterizations of the extraction steps -/

/-- First `media_content` image URL (the claim's step 1). -/
def first_media_image (e : RawEntry) : Option String :=
  ((e.media_content.getD []).find? media_matches).bind MediaItem.url

/-- First `media_thumbnail` URL (the claim's step 2). -/
def first_thumb (e : RawEntry) : Option String :=
  e.media_thumbnail.bind (fun ts => ts.head?.bind MediaItem.url)

/-- First enclosure image link href (the claim's step 3). -/
def first_enclosure (e : RawEntry) : Option String :=
  ((e.links.getD []).find? link_matches).bind LinkItem.href

/-- Total projection of `entry.get('content', [{'value': ''}])[0]['value']`
on well-formed entries. -/
def contentValD (e : RawEntry) : String :=
  match e.content with
  | none => ""
  | some cs => (cs.head?.bind ContentItem.value).getD ""

/-- The regex step's result (the claim's step 4). -/
def img_tag_src (e : RawEntry) : Option String :=
  pyImgSrcSearch (e.summary.getD "" ++ contentValD e)

theorem pyContentValue_wf (e : RawEntry) (h : wf_content e = true) :
    pyContentValue e = .ok (contentValD e) := by
  unfold pyContentValue contentValD
  unfold wf_content at h
  match he : e.content with
  | none => rfl
  | some [] => rw [he] at h; exact absurd h (by simp)
  | some (c :: rest) =>
    rw [he] at h
    obtain ⟨v, hv⟩ := Option.isSome_iff_exists.mp h
    simp [hv]

theorem find_media_url_of_all (ms : List MediaItem)
    (h : ∀ m ∈ ms, media_matches m = true → m.url.isSome = true) :
    find_media_url ms = .ok ((ms.find? media_matches).bind MediaItem.url) := by
  induction ms with
  | nil => rfl
  | cons m rest ih =>
    by_cases hm : media_matches m = true
    · obtain ⟨u, hu⟩ := Option.isSome_iff_exists.mp (h m (by simp) hm)
      simp [find_media_url, hm, hu, List.find?_cons_of_pos _ hm]
    · rw [List.find?_cons_of_neg _ (by simpa using hm)]
      simp only [find_media_url, if_neg hm]
      exact ih (fun m' hm' => h m' (List.mem_cons_of_mem _ hm'))

theorem find_enclosure_url_of_all (ls : List LinkItem)
    (h : ∀ l ∈ ls, link_matches l = true → l.href.isSome = true) :
    find_enclosure_url ls = .ok ((ls.find? link_matches).bind LinkItem.href) := by
  induction ls with
  | nil => rfl
  | cons l rest ih =>
    by_cases hl : link_matches l = true
    · obtain ⟨u, hu⟩ := Option.isSome_iff_exists.mp (h l (by simp) hl)
      simp [find_enclosure_url, hl, hu, List.find?_cons_of_pos _ hl]
    · rw [List.find?_cons_of_neg _ (by simpa using hl)]
      simp only [find_enclosure_url, if_neg hl]
      exact ih (fun l' hl' => h l' (List.mem_cons_of_mem _ hl'))

theorem extract_image_step4_wf (e : RawEntry) (h : wf_content e = true) :
    extract_image_step4 e = .ok (img_tag_src e) := by
  unfold extract_image_step4 img_tag_src
  rw [pyContentValue_wf e h]

theorem extract_image_step3_wf (e : RawEntry) (h3 : wf_links e = true)
    (h4 : wf_content e = true) :
    extract_image_step3 e = .ok (first_enclosure e <|> img_tag_src e) := by
  unfold extract_image_step3 first_enclosure
  match hl : e.links with
  | none =>
    simp only [Option.getD_none, List.find?_nil, Option.bind_none]
    rw [extract_image_step4_wf e h4]
    rfl
  | some ls =>
    unfold wf_links at h3
    rw [hl] at h3
    simp only [Option.getD_some] at h3 ⊢
    rw [find_enclosure_url_of_all ls
      (fun l hm hmm => by
        have := List.all_eq_true.mp h3 l hm
        simpa [hmm] using this)]
    match hf : (ls.find? link_matches).bind LinkItem.href with
    | some u => rfl
    | none => rw [extract_image_step4_wf e h4]; rfl

theorem extract_image_step2_wf (e : RawEntry) (h2 : wf_thumb e = true)
    (h3 : wf_links e = true) (h4 : wf_content e = true) :
    extract_image_step2 e = .ok (first_thumb e <|> first_enclosure e <|> img_tag_src e) := by
  unfold extract_image_step2 first_thumb
  match ht : e.media_thumbnail with
  | none =>
    simp only [Option.bind_none]
    rw [extract_image_step3_wf e h3 h4]
    rfl
  | some [] =>
    unfold wf_thumb at h2
    rw [ht] at h2
    exact absurd h2 (by simp)
  | some (m :: rest) =>
    unfold wf_thumb at h2
    rw [ht] at h2
    obtain ⟨u, hu⟩ := Option.isSome_iff_exists.mp h2
    simp [thumb_first, hu]

theorem extract_image_wf (e : RawEntry) (h : wf e = true) :
    extract_image e =
      .ok (first_media_image e <|> first_thumb e <|> first_enclosure e <|> img_tag_src e) := by
  unfold wf at h
  simp only [Bool.and_eq_true] at h
  obtain ⟨⟨⟨h1, h2⟩, h3⟩, h4⟩ := h
  unfold extract_image first_media_image
  match hm : e.media_content with
  | none =>
    simp only [Option.getD_none, List.find?_nil, Option.bind_none]
    rw [extract_image_step2_wf e h2 h3 h4]
    rfl
  | some ms =>
    unfold wf_media at h1
    rw [hm] at h1
    simp only [Option.getD_some] at h1 ⊢
    rw [find_media_url_of_all ms
      (fun m hm' hmm => by
        have := List.all_eq_true.mp h1 m hm'
        simpa [hmm] using this)]
    match hf : (ms.find? media_matches).bind MediaItem.url with
    | some u => rfl
    | none => rw [extract_image_step2_wf e h2 h3 h4]; rfl

/-! ### Facts about `process_entry` -/

theorem process_entry_wf (e : RawEntry) (feed_title feed_link : String)
    (now_utc : Int) (h : wf e = true) :
    process_entry e feed_title feed_link now_utc = .ok
      ⟨e.title.getD "No Title", e.link.getD "#",
       (match parse_date e with
        | some t => decide (now_utc - t < new_threshold_hours * 3600)
        | none => false),
       (match parse_date e with
        | some t => format_relative_time (some t) now_utc
        | none => ""),
       (if (contentValD e).length > (e.summary.getD (e.description.getD "")).length
        then contentValD e else e.summary.getD (e.description.getD "")),
       (first_media_image e <|> first_thumb e <|> first_enclosure e <|> img_tag_src e),
       (match parse_date e with
        | some t => t
        | none => 0),
       feed_title⟩ := by
  have h4 : wf_content e = true := by
    unfold wf at h
    simp only [Bool.and_eq_true] at h
    exact h.2
  unfold process_entry
  rw [pyContentValue_wf e h4, extract_image_wf e h]

/-- The fields of a successfully processed entry, as functions of the raw
entry: used to settle the freshness and body-selection claims without
re-deriving the record each time. -/
theorem process_entry_fields (e : RawEntry) (feed_title feed_link : String)
    (now_utc : Int) (a : Article)
    (h : process_entry e feed_title feed_link now_utc = .ok a) :
    a.is_new = (match parse_date e with
      | some t => decide (now_utc - t < new_threshold_hours * 3600)
      | none => false) ∧
    a.relative_time = (match parse_date e with
      | some t => format_relative_time (some t) now_utc
      | none => "") ∧
    a.timestamp = (match parse_date e with
      | some t => t
      | none => 0) ∧
    (∀ v, pyContentValue e = .ok v →
      a.summary = if v.length > (e.summary.getD (e.description.getD "")).length
        then v else e.summary.getD (e.description.getD "")) := by
  unfold process_entry at h
  match hc : pyContentValue e with
  | .error p => rw [hc] at h; exact absurd h (by simp)
  | .ok content =>
    rw [hc] at h
    match hi : extract_image e with
    | .error p => rw [hi] at h; exact absurd h (by simp)
    | .ok image_url =>
      rw [hi] at h
      simp only [Except.ok.injEq] at h
      subst h
      refine ⟨rfl, rfl, rfl, ?_⟩
      intro v hv
      have hv' : content = v := Except.ok.inj hv
      subst hv'
      rfl

/-! ### String lemmas for telling the relative-time labels apart -/

theorem last_two_of_append (x y : List Char) (c2 c1 d2 d1 : Char)
    (h : x ++ [c2, c1] = y ++ [d2, d1]) : c2 = d2 ∧ c1 = d1 := by
  have := (List.append_inj' h rfl).2
  simp only [List.cons.injEq] at this
  exact ⟨this.1, this.2.1⟩

theorem min_label_ne_day (x y : String) : x ++ "分前" ≠ y ++ "日前" := by
  intro h
  have hd := congrArg String.data h
  rw [String.data_append, String.data_append] at hd
  have h2 : ('分' : Char) = '日' :=
    (last_two_of_append x.data y.data '分' '前' '日' '前' hd).1
  exact absurd h2 (by decide)

theorem hour_label_ne_day (x y : String) : x ++ "時間前" ≠ y ++ "日前" := by
  intro h
  have hd := congrArg String.data h
  rw [String.data_append, String.data_append] at hd
  have hd' : (x.data ++ ['時']) ++ ['間', '前'] = y.data ++ ['日', '前'] := by
    simpa [List.append_assoc] using hd
  have h2 : ('間' : Char) = '日' :=
    (last_two_of_append (x.data ++ ['時']) y.data '間' '前' '日' '前' hd').1
  exact absurd h2 (by decide)

theorem min_label_ne_yesterday (x : String) : x ++ "分前" ≠ "昨日" := by
  intro h
  have hd := congrArg String.data h
  rw [String.data_append] at hd
  have hd' : x.data ++ ['分', '前'] = [] ++ ['昨', '日'] := by simpa using hd
  have h2 : ('分' : Char) = '昨' :=
    (last_two_of_append x.data [] '分' '前' '昨' '日' hd').1
  exact absurd h2 (by decide)

theorem hour_label_ne_yesterday (x : String) : x ++ "時間前" ≠ "昨日" := by
  intro h
  have hd := congrArg String.data h
  rw [String.data_append] at hd
  have hd' : (x.data ++ ['時']) ++ ['間', '前'] = [] ++ ['昨', '日'] := by
    simpa [List.append_assoc] using hd
  have h2 : ('間' : Char) = '昨' :=
    (last_two_of_append (x.data ++ ['時']) [] '間' '前' '昨' '日' hd').1
  exact absurd h2 (by decide)

/-! ### Dictionary and fetch-loop lemmas -/

theorem dictLookup_insert {α : Type} (m : List (String × α)) (k u : String)
    (v : α) :
    dictLookup (dictInsert m k v) u = if u = k then some v else dictLookup m u := by
  induction m with
  | nil =>
    by_cases h : u = k
    · subst h; simp [dictInsert, dictLookup]
    · have h' : ¬k = u := fun he => h he.symm
      simp [dictInsert, dictLookup, h, h']
  | cons p rest ih =>
    obtain ⟨k', v'⟩ := p
    by_cases hk : k' = k
    · subst hk
      by_cases hu : u = k'
      · subst hu; simp [dictInsert, dictLookup]
      · have hu' : ¬k' = u := fun he => hu he.symm
        simp [dictInsert, dictLookup, hu, hu']
    · by_cases hu : k' = u
      · subst hu
        have huk : ¬k' = k := hk
        simp [dictInsert, dictLookup, hk, huk]
      · by_cases huk : u = k
        · subst huk
          simp [dictInsert, dictLookup, hk, hu, ih]
        · simp [dictInsert, dictLookup, hk, hu, huk, ih]

theorem fetch_feed_congr (w w' : String → FeedDoc) (now_utc : Int)
    (url : String) (t : Option String) (h : w url = w' url) :
    fetch_feed w now_utc url t = fetch_feed w' now_utc url t := by
  unfold fetch_feed
  rw [h]

theorem fetch_all_feeds_lookup (world : String → FeedDoc) (now_utc : Int) :
    ∀ (pairs : List (String × Option String))
      (acc : List (String × Option SourceResult)) (u : String),
      dictLookup (pairs.foldl
        (fun m p => dictInsert m p.1 (fetch_feed world now_utc p.1 p.2)) acc) u =
      (match lastTitle pairs u with
       | some t => some (fetch_feed world now_utc u t)
       | none => dictLookup acc u) := by
  intro pairs
  induction pairs with
  | nil => intro acc u; rfl
  | cons p rest ih =>
    intro acc u
    obtain ⟨k, t⟩ := p
    simp only [List.foldl_cons]
    rw [ih]
    have hcons : lastTitle ((k, t) :: rest) u =
        (match lastTitle rest u with
         | some t' => some t'
         | none => if k = u then some t else none) := rfl
    rw [hcons]
    match hl : lastTitle rest u with
    | some t' => rfl
    | none =>
      rw [dictLookup_insert]
      by_cases hk : k = u
      · subst hk; simp
      · have hk' : ¬u = k := fun he => hk he.symm
        simp [hk, hk']

theorem lastTitle_isSome_of_mem (pairs : List (String × Option String))
    (u : String) (t : Option String) (h : (u, t) ∈ pairs) :
    (lastTitle pairs u).isSome = true := by
  induction pairs with
  | nil => exact absurd h (by simp)
  | cons p rest ih =>
    unfold lastTitle
    obtain ⟨k, t'⟩ := p
    rcases List.mem_cons.mp h with heq | hmem
    · simp only [Prod.mk.injEq] at heq
      match hl : lastTitle rest u with
      | some t'' => rfl
      | none => rw [if_pos heq.1.symm]; rfl
    · have := ih hmem
      match hl : lastTitle rest u with
      | some t'' => rfl
      | none => rw [hl] at this; exact absurd this (by simp)

/-- When the fetch of a URL fails, `None` is recorded: the per-URL result
is `none` exactly for a transport/timeout bozo document or an
entry-normalization error. -/
theorem fetch_feed_none_iff (world : String → FeedDoc) (now_utc : Int)
    (url : String) (t : Option String) :
    fetch_feed world now_utc url t = none ↔
      ((world url).bozo = true ∧ isTransport (world url).bozo_exception = true) ∨
      (∃ p, process_entries ((world url).entries.take max_entries)
        (t.getD ((world url).feed.title.getD "Unknown Feed")) url now_utc =
          .error p) := by
  unfold fetch_feed
  by_cases hb : ((world url).bozo && isTransport (world url).bozo_exception) = true
  · simp only [hb, if_true]
    simp only [Bool.and_eq_true] at hb
    simp [hb]
  · simp only [hb, if_false]
    simp only [Bool.and_eq_true] at hb
    match hp : process_entries ((world url).entries.take max_entries)
        (t.getD ((world url).feed.title.getD "Unknown Feed")) url now_utc with
    | .ok es => simp [hb]
    | .error p => simp

/-! ### Concrete inputs used by witnesses and counterexamples -/

/-- An entry with every field absent. -/
def emptyEntry : RawEntry := ⟨none, none, none, none, none, none, none, none, none, none⟩

/-- An entry whose `media_thumbnail` is present but empty. -/
def badEntry : RawEntry := ⟨none, none, none, none, none, none, none, none, some [], none⟩

/-- An entry with a well-formed `media_thumbnail`. -/
def thumbEntry : RawEntry :=
  ⟨none, none, none, none, none, none, none, none,
    some [⟨none, none, some "http://t/1.png"⟩], none⟩

/-- An entry whose content text is longer than its summary. -/
def bodyEntry : RawEntry :=
  ⟨none, none, none, none, some "ab", none, some [⟨some "abcd"⟩], none, none, none⟩

/-! ### Claim theorems -/

/-- C6: for a dated entry with Δ = now - publishedAt seconds, the
relative-time label falls into exactly four buckets with floor division
(Δ < 3600 → minutes; 3600 ≤ Δ < 86400 → hours; 86400 ≤ Δ < 172800 →
yesterday; Δ ≥ 172800 → days; the script's labels are Japanese), and an
entry with no date gets the empty string. -/
theorem C6_relative_time_buckets (p n : Int) :
    (n - p < 3600 →
      format_relative_time (some p) n = toString (Int.fdiv (n - p) 60) ++ "分前") ∧
    (3600 ≤ n - p → n - p < 86400 →
      format_relative_time (some p) n = toString (Int.fdiv (n - p) 3600) ++ "時間前") ∧
    (86400 ≤ n - p → n - p < 172800 →
      format_relative_time (some p) n = "昨日") ∧
    (172800 ≤ n - p →
      format_relative_time (some p) n = toString (Int.fdiv (n - p) 86400) ++ "日前") ∧
    format_relative_time none n = "" ∧
    (∀ e ft fl a, process_entry e ft fl n = .ok a → parse_date e = none →
      a.relative_time = "") ∧
    (∀ e ft fl a, process_entry e ft fl n = .ok a → parse_date e = some p →
      a.relative_time = format_relative_time (some p) n) := by
  refine ⟨?_, ?_, ?_, ?_, rfl, ?_, ?_⟩
  · intro h
    simp only [format_relative_time]
    rw [if_pos h]
  · intro h1 h2
    simp only [format_relative_time]
    rw [if_neg (by omega), if_pos h2]
  · intro h1 h2
    simp only [format_relative_time]
    rw [if_neg (by omega), if_neg (by omega), if_pos h2]
  · intro h1
    simp only [format_relative_time]
    rw [if_neg (by omega), if_neg (by omega), if_neg (by omega)]
  · intro e ft fl a h hp
    have hrel := (process_entry_fields e ft fl n a h).2.1
    rw [hp] at hrel
    exact hrel
  · intro e ft fl a h hp
    have hrel := (process_entry_fields e ft fl n a h).2.1
    rw [hp] at hrel
    exact hrel

theorem C6_witness :
    format_relative_time (some 0) 100 = toString (Int.fdiv (100 - 0) 60) ++ "分前" :=
  (C6_relative_time_buckets 0 100).1 (by decide)

/-- C8: the NG filter returns true iff some keyword is a case-insensitive
substring of title + body, an empty keyword list yields false, and (being
a pure function of its arguments in this embedding) it cannot mutate the
article. -/
theorem C8_ng_filter (a : Article) (ng : List String) :
    (is_ng_content a ng = true ↔
      ∃ kw ∈ ng, (pyLower kw).toList <:+: (pyLower (a.title ++ a.summary)).toList) ∧
    is_ng_content a [] = false := by
  constructor
  · unfold is_ng_content pyIn
    rw [List.any_eq_true]
    constructor
    · rintro ⟨kw, hkw, hdec⟩
      exact ⟨kw, hkw, of_decide_eq_true hdec⟩
    · rintro ⟨kw, hkw, hinf⟩
      exact ⟨kw, hkw, decide_eq_true hinf⟩
  · rfl

/-- C2 counterexample: an entry whose `media_thumbnail` is present but
empty makes `process_entry` raise an `IndexError` (build.py:66), so the
normalizer is not total on entries with empty structured fields. -/
theorem C2_counterexample :
    process_entry badEntry "Feed" "u" 0 = .error .indexError := by decide

/-- C2 (amended): `process_entry` never fails on entries whose structured
fields are each absent or well-shaped — in particular an entry missing
every structured field is processed without error; a structured field
that is present but empty or lacking its expected sub-key raises. -/
theorem C2_amended (e : RawEntry) (ft fl : String) (now_utc : Int)
    (h : wf e = true) :
    (process_entry e ft fl now_utc).isOk = true := by
  rw [process_entry_wf e ft fl now_utc h]
  rfl

theorem C2_witness :
    wf emptyEntry = true ∧ (process_entry emptyEntry "Feed" "u" 0).isOk = true :=
  ⟨by decide, C2_amended emptyEntry "Feed" "u" 0 (by decide)⟩

/-- An entry with an empty `media_thumbnail` and a valid enclosure image
link. -/
def cexC7Entry : RawEntry :=
  ⟨none, none, none, none, none, none, none, none, some [],
    some [⟨some "enclosure", some "image/png", some "http://e/1.png"⟩]⟩

/-- C7 counterexample: steps 1 and 2 produce no hit (no `media_content`
item matches and the empty `media_thumbnail` list has no first URL) and
step 3 has a hit — so the claim predicts the enclosure href — but the
code raises `IndexError` at the `media_thumbnail[0]` subscript
(build.py:66) instead of falling through, so on this raw entry the
extraction yields neither the first hit nor "no thumbnail". -/
theorem C7_counterexample :
    first_media_image cexC7Entry = none ∧
    first_thumb cexC7Entry = none ∧
    first_enclosure cexC7Entry = some "http://e/1.png" ∧
    extract_image cexC7Entry = .error .indexError := by decide

/-- C7 (amended): on every well-formed raw entry (each structured field
absent or carrying the sub-keys the script reads), thumbnail extraction
tries the four sources in order — matching `media_content` item, first
`media_thumbnail` URL, enclosure image link, `<img src>` regex over
summary + content — and the first hit wins, else no thumbnail; on an
entry with a present-but-malformed structured field the extraction
raises instead of falling through. -/
theorem C7_extract_image_order (e : RawEntry) (h : wf e = true) :
    extract_image e =
      .ok (first_media_image e <|> first_thumb e <|> first_enclosure e <|> img_tag_src e) :=
  extract_image_wf e h

theorem C7_witness :
    wf thumbEntry = true ∧
      extract_image thumbEntry =
        .ok (first_media_image thumbEntry <|> first_thumb thumbEntry <|>
          first_enclosure thumbEntry <|> img_tag_src thumbEntry) :=
  ⟨by decide, C7_extract_image_order thumbEntry (by decide)⟩

/-- C9: the normalized body is the longer (by raw character count) of the
content field and the summary field (the latter falling back to
description), content winning only when strictly longer. -/
theorem C9_body_selection (e : RawEntry) (ft fl : String) (now_utc : Int)
    (a : Article) (v : String) (hv : pyContentValue e = .ok v)
    (h : process_entry e ft fl now_utc = .ok a) :
    a.summary = if v.length > (e.summary.getD (e.description.getD "")).length
      then v else e.summary.getD (e.description.getD "") :=
  (process_entry_fields e ft fl now_utc a h).2.2.2 v hv

theorem C9_witness :
    (Article.mk "No Title" "#" false "" "abcd" none 0 "S").summary =
      if "abcd".length > (bodyEntry.summary.getD (bodyEntry.description.getD "")).length
      then "abcd" else bodyEntry.summary.getD (bodyEntry.description.getD "") :=
  C9_body_selection bodyEntry "S" "u" 0 _ "abcd" (by decide) (by decide)

/-- C10: for a dated entry, `is_new` holds exactly when the relative-time
label is in the minutes or hours bucket, i.e. is neither the yesterday
label nor a days-ago label — the 24-hour novelty window coincides with the
86400-second bucket boundary and both use the same build time. -/
theorem C10_is_new_iff_fresh_label (e : RawEntry) (ft fl : String)
    (n p : Int) (a : Article) (hp : parse_date e = some p)
    (h : process_entry e ft fl n = .ok a) :
    a.is_new = true ↔
      (a.relative_time ≠ "昨日" ∧
        ∀ k : Int, a.relative_time ≠ toString k ++ "日前") := by
  obtain ⟨hnew, hrel, -, -⟩ := process_entry_fields e ft fl n a h
  rw [hp] at hnew hrel
  have hthr : new_threshold_hours * 3600 = (86400 : Int) := by decide
  rw [hthr] at hnew
  rw [hnew, hrel]
  simp only [format_relative_time]
  by_cases h1 : n - p < 3600
  · rw [if_pos h1]
    constructor
    · intro _
      exact ⟨min_label_ne_yesterday _, fun k => min_label_ne_day _ (toString k)⟩
    · intro _
      exact decide_eq_true (by omega)
  · rw [if_neg h1]
    by_cases h2 : n - p < 86400
    · rw [if_pos h2]
      constructor
      · intro _
        exact ⟨hour_label_ne_yesterday _, fun k => hour_label_ne_day _ (toString k)⟩
      · intro _
        exact decide_eq_true h2
    · rw [if_neg h2]
      by_cases h3 : n - p < 172800
      · rw [if_pos h3]
        constructor
        · intro hnew'
          exact absurd (of_decide_eq_true hnew') h2
        · rintro ⟨hy, -⟩
          exact absurd rfl hy
      · rw [if_neg h3]
        constructor
        · intro hnew'
          exact absurd (of_decide_eq_true hnew') h2
        · rintro ⟨-, hd⟩
          exact absurd rfl (hd (Int.fdiv (n - p) 86400))

/-- An entry published two hours before build time 7200. -/
def freshEntry : RawEntry := ⟨none, none, some 0, none, none, none, none, none, none, none⟩

/-- The article `process_entry` produces for `freshEntry` at time 7200. -/
def freshArticle : Article := ⟨"No Title", "#", true, "2時間前", "", none, 0, "S"⟩

theorem C10_witness :
    freshArticle.is_new = true ↔
      (freshArticle.relative_time ≠ "昨日" ∧
        ∀ k : Int, freshArticle.relative_time ≠ toString k ++ "日前") :=
  C10_is_new_iff_fresh_label freshEntry "S" "u" 7200 0 freshArticle (by decide) (by decide)

/-- An entry whose `published_parsed` lies 5 seconds before the epoch. -/
def preEpochEntry : RawEntry := ⟨none, none, some (-5), none, none, none, none, none, none, none⟩

/-- The article `process_entry` produces for `preEpochEntry` at time 0. -/
def artPre : Article := ⟨"No Title", "#", true, "0分前", "", none, -5, "S"⟩

/-- The article `process_entry` produces for `emptyEntry` at time 0. -/
def artUndated : Article := ⟨"No Title", "#", false, "", "", none, 0, "S"⟩

/-- C3 counterexample: an undated article (sortKey 0) does not rank after
a dated article whose `published_parsed` precedes the Unix epoch (sortKey
-5): the recency sort places the undated article first. -/
theorem C3_counterexample :
    process_entry preEpochEntry "S" "u" 0 = .ok artPre ∧
    process_entry emptyEntry "S" "u" 0 = .ok artUndated ∧
    artUndated.timestamp = 0 ∧ artPre.timestamp = -5 ∧
    pySortDesc [artPre, artUndated] = [artUndated, artPre] := by decide

/-- C3 (amended): `is_new` holds iff a date parsed and `now - date` is
inside the 24-hour window; an article without a parseable date is never
new, has sort key 0, and ranks after every article dated after the Unix
epoch (positive sort key) in any recency sort — an article dated at or
before the epoch (sort key ≤ 0) may precede it. -/
theorem C3_amended :
    (∀ e ft fl now_utc a, process_entry e ft fl now_utc = .ok a →
      (a.is_new = true ↔
        ∃ t, parse_date e = some t ∧ now_utc - t < new_threshold_hours * 3600)) ∧
    (∀ e ft fl now_utc a, parse_date e = none →
      process_entry e ft fl now_utc = .ok a →
      a.is_new = false ∧ a.timestamp = 0) ∧
    (∀ (l : List Article) a b, List.Sublist [a, b] (pySortDesc l) → a.timestamp = 0 →
      b.timestamp ≤ 0) := by
  refine ⟨?_, ?_, ?_⟩
  · intro e ft fl now_utc a h
    have hnew := (process_entry_fields e ft fl now_utc a h).1
    match hp : parse_date e with
    | some t =>
      rw [hp] at hnew
      rw [hnew]
      simp only [decide_eq_true_iff]
      constructor
      · intro hlt
        exact ⟨t, rfl, hlt⟩
      · rintro ⟨t', ht', hlt⟩
        cases Option.some.inj ht'
        exact hlt
    | none =>
      rw [hp] at hnew
      rw [hnew]
      simp
  · intro e ft fl now_utc a hp h
    obtain ⟨hnew, -, hts, -⟩ := process_entry_fields e ft fl now_utc a h
    rw [hp] at hnew hts
    exact ⟨hnew, hts⟩
  · intro l a b hsub hts
    have hpw : List.Pairwise tsGE (pySortDesc l) :=
      List.sorted_insertionSort tsGE l
    have hpair : List.Pairwise tsGE [a, b] := List.Pairwise.sublist hsub hpw
    have hab : tsGE a b := by
      cases hpair with
      | cons h1 _ => exact h1 b (by simp)
    unfold tsGE at hab
    rw [hts] at hab
    exact hab

theorem C3_witness :
    artUndated.is_new = false ∧ artUndated.timestamp = 0 :=
  C3_amended.2.1 emptyEntry "S" "u" 0 artUndated (by decide) (by decide)

/-! ### C1: deduplication of fetched URLs -/

theorem mem_collect_urls (cfg : Config) (u : String) (t : Option String) :
    (u, t) ∈ collect_urls cfg ↔
      ∃ p ∈ cfg.pages, ∃ f ∈ p.feeds, pyStrip f.url = u ∧ f.title = t := by
  unfold collect_urls
  rw [List.mem_toFinset, List.mem_flatMap]
  constructor
  · rintro ⟨p, hp, hmem⟩
    rw [List.mem_map] at hmem
    obtain ⟨f, hf, heq⟩ := hmem
    simp only [Prod.mk.injEq] at heq
    exact ⟨p, hp, f, hf, heq.1, heq.2⟩
  · rintro ⟨p, hp, f, hf, h1, h2⟩
    exact ⟨p, hp, List.mem_map.mpr ⟨f, hf, by rw [h1, h2]⟩⟩

/-- A config in which two pages reference the same URL under different
title overrides. -/
def cfgTwoTitles : Config :=
  ⟨[⟨"P1", "p1.html", [⟨"u", some "A"⟩], []⟩,
    ⟨"P2", "p2.html", [⟨"u", some "B"⟩], []⟩], []⟩

/-- C1 counterexample: with two title overrides for one URL, the fetch
set `all_urls` has two elements for a single distinct URL, so the URL is
fetched twice — dedup is by `(url, title)` pair, not by URL. -/
theorem C1_counterexample :
    (collect_urls cfgTwoTitles).card = 2 ∧
    ((collect_urls cfgTwoTitles).image Prod.fst).card = 1 := by decide

/-- C1 (amended): the fetch set is the set of distinct
`(stripped url, title override)` pairs across all pages — so a URL is
fetched once per distinct accompanying title override (exactly once when
every reference carries the same override), and all pages referencing a
URL read the same single entry of the results mapping, which is keyed by
URL alone. -/
theorem C1_dedup (cfg : Config) :
    (∀ u t, (u, t) ∈ collect_urls cfg ↔
      ∃ p ∈ cfg.pages, ∃ f ∈ p.feeds, pyStrip f.url = u ∧ f.title = t) ∧
    (∀ u t0, (∀ p ∈ cfg.pages, ∀ f ∈ p.feeds, pyStrip f.url = u → f.title = t0) →
      ((collect_urls cfg).filter (fun q => q.1 = u)).card ≤ 1) ∧
    (∀ (data : List (String × Option SourceResult)) (f1 f2 : FeedConf),
      pyStrip f1.url = pyStrip f2.url →
      dictLookup data (pyStrip f1.url) = dictLookup data (pyStrip f2.url)) := by
  refine ⟨mem_collect_urls cfg, ?_, ?_⟩
  · intro u t0 hall
    have hsub : (collect_urls cfg).filter (fun q => q.1 = u) ⊆ {(u, t0)} := by
      intro q hq
      rw [Finset.mem_filter] at hq
      obtain ⟨hmem, hfst⟩ := hq
      obtain ⟨u', t'⟩ := q
      simp only at hfst
      subst hfst
      obtain ⟨p, hp, f, hf, h1, h2⟩ := (mem_collect_urls cfg u' t').mp hmem
      have := hall p hp f hf h1
      rw [Finset.mem_singleton]
      rw [← h2, this]
    calc ((collect_urls cfg).filter (fun q => q.1 = u)).card
        ≤ ({(u, t0)} : Finset (String × Option String)).card :=
          Finset.card_le_card hsub
      _ = 1 := Finset.card_singleton _
  · intro data f1 f2 h
    rw [h]

/-- A config referencing one URL twice, the second time with surrounding
whitespace, under one title override. -/
def cfgOneTitle : Config :=
  ⟨[⟨"P", "p.html", [⟨"u", some "A"⟩, ⟨" u ", some "A"⟩], []⟩], []⟩

theorem C1_witness :
    ((collect_urls cfgOneTitle).filter (fun q => q.1 = "u")).card ≤ 1 :=
  (C1_dedup cfgOneTitle).2.1 "u" (some "A") (by decide)

/-! ### C4: failure isolation in the fetch loop -/

/-- A non-bozo document carrying one malformed entry. -/
def badDoc : FeedDoc := ⟨false, .other, ⟨none, none⟩, [badEntry]⟩

/-- A bozo document carrying a timeout exception. -/
def timeoutDoc : FeedDoc := ⟨true, .timeout, ⟨none, none⟩, []⟩

/-- C4 counterexample: a URL whose document parses without any bozo error
still short-circuits to a null result when one of its entries makes the
normalizer raise — null results are not limited to hard transport/timeout
failures. -/
theorem C4_counterexample :
    fetch_feed (fun _ => badDoc) 0 "u" none = none ∧ badDoc.bozo = false := by
  decide

/-- C4 (amended): every requested URL gets a recorded result and one
URL's outcome never influences another's (failures cannot abort the
loop); a URL's result is `None` exactly when its document is bozo with a
transport/timeout exception or when normalizing one of its (capped)
entries raises — in particular a bozo document with a non-transport
exception and well-formed entries is still processed. -/
theorem C4_failure_isolation (now_utc : Int) :
    (∀ (world : String → FeedDoc) pairs u t, (u, t) ∈ pairs →
      (dictLookup (fetch_all_feeds world now_utc pairs) u).isSome = true) ∧
    (∀ (w w' : String → FeedDoc) pairs u, w u = w' u →
      dictLookup (fetch_all_feeds w now_utc pairs) u =
        dictLookup (fetch_all_feeds w' now_utc pairs) u) ∧
    (∀ (world : String → FeedDoc) u t,
      fetch_feed world now_utc u t = none ↔
        ((world u).bozo = true ∧ isTransport (world u).bozo_exception = true) ∨
        (∃ p, process_entries ((world u).entries.take max_entries)
          (t.getD ((world u).feed.title.getD "Unknown Feed")) u now_utc =
            .error p)) := by
  refine ⟨?_, ?_, fun world u t => fetch_feed_none_iff world now_utc u t⟩
  · intro world pairs u t hmem
    unfold fetch_all_feeds
    rw [fetch_all_feeds_lookup]
    match hl : lastTitle pairs u with
    | some t' => rfl
    | none =>
      have := lastTitle_isSome_of_mem pairs u t hmem
      rw [hl] at this
      exact absurd this (by simp)
  · intro w w' pairs u hw
    unfold fetch_all_feeds
    rw [fetch_all_feeds_lookup, fetch_all_feeds_lookup]
    match lastTitle pairs u with
    | some t' =>
      show some (fetch_feed w now_utc u t') = some (fetch_feed w' now_utc u t')
      rw [fetch_feed_congr w w' now_utc u t' hw]
    | none => rfl

theorem C4_witness :
    (dictLookup (fetch_all_feeds (fun _ => timeoutDoc) 0 [("u", none)]) "u").isSome
      = true :=
  (C4_failure_isolation 0).1 (fun _ => timeoutDoc) [("u", none)] "u" none (by decide)

/-! ### C5: the watch builder -/

/-- C5: for a watch keyword, the builder scans every successfully
aggregated source, applies the watch's NG filter, matches the keyword
case-insensitively against title + body, and the display entry (produced
only when matches exist) carries the matches sorted descending by sort
key with ties kept in encounter order (the sort is stable). -/
theorem C5_watch_builder (data : List (String × Option SourceResult))
    (ng : List String) (kw : String) :
    (build_watch_entry data ng kw = none ↔ watch_matches data ng kw = []) ∧
    (∀ x, x ∈ watch_matches data ng kw ↔
      ∃ pr ∈ data, ∃ src, pr.2 = some src ∧ x ∈ src.entries ∧
        is_ng_content x ng = false ∧
        pyIn (pyLower kw) (pyLower (x.title ++ x.summary)) = true) ∧
    List.Pairwise (fun a b => b.timestamp ≤ a.timestamp)
      (pySortDesc (watch_matches data ng kw)) ∧
    List.Perm (pySortDesc (watch_matches data ng kw)) (watch_matches data ng kw) ∧
    (∀ a b, List.Sublist [a, b] (watch_matches data ng kw) →
      b.timestamp ≤ a.timestamp →
      List.Sublist [a, b] (pySortDesc (watch_matches data ng kw))) ∧
    (∀ d, build_watch_entry data ng kw = some d →
      d.entries = pySortDesc (watch_matches data ng kw)) := by
  have hperm : List.Perm (pySortDesc (watch_matches data ng kw))
      (watch_matches data ng kw) :=
    List.perm_insertionSort tsGE (watch_matches data ng kw)
  refine ⟨?_, ?_, ?_, hperm, ?_, ?_⟩
  · unfold build_watch_entry
    by_cases he : (pySortDesc (watch_matches data ng kw)).isEmpty = true
    · rw [if_pos he]
      have hsorted : pySortDesc (watch_matches data ng kw) = [] :=
        List.isEmpty_iff.mp he
      have hm : watch_matches data ng kw = [] := by
        have hlen := hperm.length_eq
        rw [hsorted] at hlen
        exact List.length_eq_zero.mp hlen.symm
      simp [hm]
    · rw [if_neg he]
      constructor
      · intro h
        exact absurd h (by simp)
      · intro hm
        exfalso
        apply he
        have hnil : pySortDesc (watch_matches data ng kw) = [] := by
          rw [hm]
          rfl
        rw [hnil]
        rfl
  · intro x
    unfold watch_matches
    rw [List.mem_flatMap]
    constructor
    · rintro ⟨pr, hpr, hx⟩
      match hp2 : pr.2 with
      | none => rw [hp2] at hx; exact absurd hx (by simp)
      | some src =>
        rw [hp2] at hx
        rw [List.mem_filter] at hx
        obtain ⟨hxe, hcond⟩ := hx
        rw [Bool.and_eq_true] at hcond
        exact ⟨pr, hpr, src, hp2, hxe,
          Bool.not_eq_true' .. ▸ hcond.1, hcond.2⟩
    · rintro ⟨pr, hpr, src, hp2, hxe, hng, hkw⟩
      refine ⟨pr, hpr, ?_⟩
      rw [hp2]
      rw [List.mem_filter]
      exact ⟨hxe, by rw [hng, hkw]; rfl⟩
  · exact List.sorted_insertionSort tsGE (watch_matches data ng kw)
  · intro a b hsub hts
    show List.Sublist [a, b] (List.insertionSort tsGE (watch_matches data ng kw))
    exact List.pair_sublist_insertionSort hts hsub
  · intro d hd
    unfold build_watch_entry at hd
    by_cases he : (pySortDesc (watch_matches data ng kw)).isEmpty = true
    · rw [if_pos he] at hd
      exact absurd hd (by simp)
    · rw [if_neg he] at hd
      have hd' := Option.some.inj hd
      rw [← hd']

/-- Two articles sharing one timestamp, in a single aggregated source. -/
def wArt1 : Article := ⟨"kube A", "#", false, "", "", none, 5, "S"⟩

/-- Second article with the same timestamp as `wArt1`. -/
def wArt2 : Article := ⟨"kube B", "#", false, "", "", none, 5, "S"⟩

/-- Source holding `wArt1` and `wArt2`. -/
def wSrc : SourceResult := ⟨"S", "", [wArt1, wArt2]⟩

/-- Aggregated pool with the single source `wSrc`. -/
def wData : List (String × Option SourceResult) := [("u", some wSrc)]

theorem C5_witness :
    List.Sublist [wArt1, wArt2] (pySortDesc (watch_matches wData [] "kube")) :=
  (C5_watch_builder wData [] "kube").2.2.2.2.1 wArt1 wArt2 (by decide) (by decide)

end RSSBuild
